import Mathlib

/-!
# Verification of the tts-cli synthesis pipeline

A shallow embedding of the tts-cli repository (src/cache.rs, src/providers.rs,
src/main.rs) and proofs of its specified properties.

Modelling conventions:
* Rust `&str` arguments that are only ever fed to the hasher as UTF-8 bytes
  (`as_bytes`) are modelled as `List Nat` byte lists; string arguments compared
  against literals (provider names, language codes) are modelled as `String`.
* The SHA-256 digest is implemented concretely (FIPS 180-4) over byte lists,
  with 32-bit words as `Nat` reduced mod `2 ^ 32`.
* The filesystem is an association list from path to byte blob, plus a flag for
  the cache root directory; the primitive operations mirror `std::fs`/`tokio::fs`
  semantics (`remove_file` and `remove_dir_all` fail on an absent target,
  `write` overwrites, `read` fails on an absent file).
* External subprocesses (TTS engines) are modelled by a behaviour record
  describing the observable outcome of one invocation: whether it could be
  spawned, its exit status, its stderr, and what it wrote to its output file.
* The fallback orchestrator additionally returns the trace of providers whose
  synthesis routine was invoked, in order, so that "invoked exactly once"
  claims are statable.
-/

/-! ## SHA-256 (from the `sha2` crate behaviour used by `cache.rs`) -/

/-- 32-bit modular addition. -/
def add32 (a b : Nat) : Nat := (a + b) % 2 ^ 32

/-- Right rotation of a 32-bit word. -/
def rotr32 (n x : Nat) : Nat := ((x >>> n) ||| (x <<< (32 - n))) % 2 ^ 32

/-- SHA-256 small sigma 0. -/
def ssig0 (x : Nat) : Nat := (rotr32 7 x) ^^^ (rotr32 18 x) ^^^ (x >>> 3)

/-- SHA-256 small sigma 1. -/
def ssig1 (x : Nat) : Nat := (rotr32 17 x) ^^^ (rotr32 19 x) ^^^ (x >>> 10)

/-- SHA-256 big sigma 0. -/
def bsig0 (x : Nat) : Nat := (rotr32 2 x) ^^^ (rotr32 13 x) ^^^ (rotr32 22 x)

/-- SHA-256 big sigma 1. -/
def bsig1 (x : Nat) : Nat := (rotr32 6 x) ^^^ (rotr32 11 x) ^^^ (rotr32 25 x)

/-- SHA-256 choice function. -/
def chf (x y z : Nat) : Nat := (x &&& y) ^^^ ((x ^^^ (2 ^ 32 - 1)) &&& z)

/-- SHA-256 majority function. -/
def majf (x y z : Nat) : Nat := (x &&& y) ^^^ (x &&& z) ^^^ (y &&& z)

/-- The 64 SHA-256 round constants of FIPS 180-4 (decimal form of
0x428a2f98, 0x71374491, ..., 0xc67178f2). -/
def shaK : List Nat :=
  [1116352408, 1899447441, 3049323471, 3921009573, 961987163, 1508970993,
   2453635748, 2870763221, 3624381080, 310598401, 607225278, 1426881987,
   1925078388, 2162078206, 2614888103, 3248222580, 3835390401, 4022224774,
   264347078, 604807628, 770255983, 1249150122, 1555081692, 1996064986,
   2554220882, 2821834349, 2952996808, 3210313671, 3336571891, 3584528711,
   113926993, 338241895, 666307205, 773529912, 1294757372, 1396182291,
   1695183700, 1986661051, 2177026350, 2456956037, 2730485921, 2820302411,
   3259730800, 3345764771, 3516065817, 3600352804, 4094571909, 275423344,
   430227734, 506948616, 659060556, 883997877, 958139571, 1322822218,
   1537002063, 1747873779, 1955562222, 2024104815, 2227730452, 2361852424,
   2428436474, 2756734187, 3204031479, 3329325298]

/-- The SHA-256 initial hash value of FIPS 180-4 (decimal form of
0x6a09e667, ..., 0x5be0cd19). -/
def shaH0 : List Nat :=
  [1779033703, 3144134277, 1013904242, 2773480762,
   1359893119, 2600822924, 528734635, 1541459225]

/-- Big-endian byte decomposition of `n` into `len` bytes. -/
def toBytesBE (n : Nat) : Nat → List Nat
  | 0 => []
  | k + 1 => toBytesBE (n / 256) k ++ [n % 256]

/-- SHA-256 padding: append `0x80`, zeros to 56 mod 64, then the 64-bit
big-endian bit length. -/
def padMessage (msg : List Nat) : List Nat :=
  let zeros := (120 - (msg.length + 1) % 64) % 64
  msg ++ [0x80] ++ List.replicate zeros 0 ++ toBytesBE (8 * msg.length) 8

/-- Group a byte list into big-endian 32-bit words. -/
def bytesToWords : List Nat → List Nat
  | a :: b :: c :: d :: rest => (((a * 256 + b) * 256 + c) * 256 + d) :: bytesToWords rest
  | _ => []

/-- Append the next message-schedule word to `ws`. -/
def scheduleStep (ws : List Nat) : List Nat :=
  let i := ws.length
  ws ++ [add32 (add32 (ws.getD (i - 16) 0) (ssig0 (ws.getD (i - 15) 0)))
              (add32 (ws.getD (i - 7) 0) (ssig1 (ws.getD (i - 2) 0)))]

/-- Extend the 16-word schedule by `n` further words. -/
def extendSchedule : List Nat → Nat → List Nat
  | ws, 0 => ws
  | ws, n + 1 => extendSchedule (scheduleStep ws) n

/-- One SHA-256 compression round, on the state `[a,b,c,d,e,f,g,h]`, given the
round constant and schedule word. -/
def compressRound (st : List Nat) (kw : Nat × Nat) : List Nat :=
  match st with
  | [a, b, c, d, e, f, g, h] =>
      let t1 := add32 h (add32 (bsig1 e) (add32 (chf e f g) (add32 kw.1 kw.2)))
      let t2 := add32 (bsig0 a) (majf a b c)
      [add32 t1 t2, a, b, c, add32 d t1, e, f, g]
  | other => other

/-- Process one 64-byte block, updating the 8-word intermediate hash. -/
def processBlock (h : List Nat) (block : List Nat) : List Nat :=
  let ws := extendSchedule (bytesToWords block) 48
  let st := List.foldl compressRound h (List.zip shaK ws)
  List.zipWith add32 h st

/-- Split a (padded) byte list into 64-byte chunks. -/
def chunks64 (l : List Nat) : List (List Nat) :=
  if h : l = [] then []
  else l.take 64 :: chunks64 (l.drop 64)
termination_by l.length
decreasing_by
  have hpos : 0 < l.length := List.length_pos.mpr h
  simp [List.length_drop]
  omega

/-- The SHA-256 digest of a byte list, as 32 bytes. -/
def sha256 (msg : List Nat) : List Nat :=
  let finalH := List.foldl processBlock shaH0 (chunks64 (padMessage msg))
  List.flatten (finalH.map (fun w => toBytesBE w 4))

/-- Lowercase hex digit for a nibble, as `hex::encode` produces. -/
def hexDigit (n : Nat) : Char := if n < 10 then Char.ofNat (48 + n) else Char.ofNat (87 + n)

/-- Lowercase hex encoding of a byte list (`hex::encode`). -/
def hexEncode (bs : List Nat) : String :=
  String.mk (List.flatten (bs.map (fun b => [hexDigit (b / 16), hexDigit (b % 16)])))

/-- The incremental `Sha256` hasher of the `sha2` crate: the absorbed bytes. -/
structure Sha256 where
  buf : List Nat
deriving Repr, DecidableEq

/-- Model of `Sha256::new()`. -/
def Sha256.new : Sha256 := ⟨[]⟩

/-- Model of `hasher.update(data)`: absorb more bytes. -/
def Sha256.update (h : Sha256) (data : List Nat) : Sha256 := ⟨h.buf ++ data⟩

/-- Model of `hasher.finalize()`: the digest of all absorbed bytes. -/
def Sha256.finalize (h : Sha256) : List Nat := sha256 h.buf

/-! ## `cache.rs`: cache key -/

/-- Model of `generate_cache_key` from `cache.rs`: hash text, provider and language
bytes, then the voice bytes only when a voice is present, and hex-encode the
digest. -/
def generate_cache_key (text provider language : List Nat)
    (voice : Option (List Nat)) : String :=
  let hasher := Sha256.new
  let hasher := hasher.update text
  let hasher := hasher.update provider
  let hasher := hasher.update language
  let hasher :=
    match voice with
    | some v => hasher.update v
    | none => hasher
  hexEncode hasher.finalize

/-- The byte sequence `generate_cache_key` feeds to the digest: text bytes,
provider bytes, language bytes, then the voice bytes when present. -/
def digestInput (text provider language : List Nat)
    (voice : Option (List Nat)) : List Nat :=
  text ++ provider ++ language ++ voice.getD []

/-! ## `cache.rs`: on-disk cache store

The cache directory is modelled as a flag for the root directory's existence
plus an association list from file path (within the root) to contents. The
`std::fs`/`tokio::fs` primitives used by `cache.rs` are modelled with their
real failure behaviour: `remove_file` and `remove_dir_all` fail when the
target is absent (which is what makes the `exists()` guards in the source
load-bearing), `write` overwrites silently, `read` fails when absent. -/

/-- Filesystem errors surfaced by the modelled primitives. -/
inductive IoError where
  | notFound : IoError
deriving Repr, DecidableEq

/-- The cache root: whether the directory exists, and its files. -/
structure CacheFs where
  dirExists : Bool
  files : List (String × List Nat)
deriving Repr, DecidableEq

/-- Look up a path in the file table. -/
def CacheFs.lookup (fs : CacheFs) (path : String) : Option (List Nat) :=
  match fs.files.find? (fun e => e.1 = path) with
  | some e => some e.2
  | none => none

/-- Model of `path.exists()`. -/
def CacheFs.pathExists (fs : CacheFs) (path : String) : Bool :=
  (fs.lookup path).isSome

/-- Model of `fs::write`: create or overwrite the file at `path`. -/
def CacheFs.writeFile (fs : CacheFs) (path : String) (data : List Nat) : CacheFs :=
  { fs with files := (path, data) :: fs.files.filter (fun e => e.1 ≠ path) }

/-- Model of `fs::read`: fails when the file is absent. -/
def CacheFs.readFile (fs : CacheFs) (path : String) : Except IoError (List Nat) :=
  match fs.lookup path with
  | some data => .ok data
  | none => .error .notFound

/-- Model of `fs::remove_file`: fails when the file is absent. -/
def CacheFs.removeFile (fs : CacheFs) (path : String) : Except IoError CacheFs :=
  if fs.pathExists path then
    .ok { fs with files := fs.files.filter (fun e => e.1 ≠ path) }
  else .error .notFound

/-- Model of `fs::create_dir_all` on the cache root: always succeeds. -/
def CacheFs.createDirAll (fs : CacheFs) : CacheFs :=
  { fs with dirExists := true }

/-- Model of `fs::remove_dir_all` on the cache root: fails when it does not exist. -/
def CacheFs.removeDirAll (fs : CacheFs) : Except IoError CacheFs :=
  if fs.dirExists then .ok { dirExists := false, files := [] }
  else .error .notFound

/-- Model of `get_cache_path`: `<cache-root>/<key>.audio`, modelled relative to the
root. -/
def get_cache_path (cacheKey : String) : String := cacheKey ++ ".audio"

/-- Model of `get_cached_audio` from `cache.rs`: return the blob when the cache file
exists, `none` otherwise; never fails on a miss. -/
def get_cached_audio (cacheKey : String) (fs : CacheFs) :
    Except IoError (Option (List Nat)) :=
  let cachePath := get_cache_path cacheKey
  if fs.pathExists cachePath then
    match fs.readFile cachePath with
    | .ok data => .ok (some data)
    | .error e => .error e
  else .ok none

/-- Model of `cache_audio` from `cache.rs`: ensure the cache root exists, then write the
blob under the key's path. -/
def cache_audio (cacheKey : String) (audioData : List Nat) (fs : CacheFs) :
    Except IoError CacheFs :=
  let fs1 := fs.createDirAll
  .ok (fs1.writeFile (get_cache_path cacheKey) audioData)

/-- Model of `clear_text_cache` from `cache.rs`: derive the key, remove the entry only
when it exists. -/
def clear_text_cache (text provider language : List Nat)
    (voice : Option (List Nat)) (fs : CacheFs) : Except IoError CacheFs :=
  let cacheKey := generate_cache_key text provider language voice
  let cachePath := get_cache_path cacheKey
  if fs.pathExists cachePath then
    match fs.removeFile cachePath with
    | .ok fs2 => .ok fs2
    | .error e => .error e
  else .ok fs

/-- Model of `clear_all_cache` from `cache.rs`: remove the entire cache root only when
it exists. -/
def clear_all_cache (fs : CacheFs) : Except IoError CacheFs :=
  if fs.dirExists then
    match fs.removeDirAll with
    | .ok fs2 => .ok fs2
    | .error e => .error e
  else .ok fs

/-! ## `providers.rs`: adapter voice selection and invocations

The argument vectors built by the adapters are modelled exactly as the source
constructs them (`Command::new(...).arg(...)` chains); the temp-dir path prefix
from `std::env::temp_dir()` is elided, so temp files are named by their file
name alone. -/

/-- Model of `synthesize_gcloud` voice selection: the explicit voice, else a
per-language default table, else the baseline `en-US-Wavenet-D`. -/
def gcloudVoiceName (language : String) (voice : Option String) : String :=
  match voice with
  | some v => v
  | none =>
      if language = "en-US" then "en-US-Wavenet-D"
      else if language = "es-ES" then "es-ES-Wavenet-C"
      else if language = "fr-FR" then "fr-FR-Wavenet-D"
      else if language = "de-DE" then "de-DE-Wavenet-D"
      else "en-US-Wavenet-D"

/-- Model of `synthesize_espeak` language-code selection (the `-v` argument): a
per-language table with baseline `en`; the explicit voice is ignored. -/
def espeakLangCode (language : String) : String :=
  if language = "en-US" ∨ language = "en" then "en"
  else if language = "es-ES" ∨ language = "es" then "es"
  else if language = "fr-FR" ∨ language = "fr" then "fr"
  else if language = "de-DE" ∨ language = "de" then "de"
  else "en"

/-- The argument vector `synthesize_espeak` passes to `espeak`. -/
def espeakArgs (text language : String) (_voice : Option String) : List String :=
  ["-v", espeakLangCode language, "--stdout", text]

/-- The argument vector `synthesize_festival` passes to `festival`: no voice
argument, and no dependence on language or voice at all. -/
def festivalArgs (text : String) (_language : String) (_voice : Option String) :
    List String :=
  ["--tts", "--otype", "wav", "--output", "tts_temp.wav", text]

/-- The argument vector `synthesize_say` passes to `say`: `-v` only when an
explicit voice is given; no dependence on language. -/
def sayArgs (text : String) (_language : String) (voice : Option String) :
    List String :=
  ["-o", "tts_temp.aiff"] ++
    (match voice with
     | some v => ["-v", v]
     | none => []) ++ [text]

/-- The observable outcome of one external engine invocation: whether the
process could be spawned, whether it exited successfully, its stderr, and what
it wrote to its output file (if anything). -/
structure EngineRun where
  spawnOk : Bool
  exitSuccess : Bool
  stderr : String
  written : Option (List Nat)
deriving Repr, DecidableEq

/-- The temp directory: file name mapped to contents. -/
structure TempDir where
  files : List (String × List Nat)
deriving Repr, DecidableEq

/-- Look up a file in the temp directory. -/
def TempDir.lookup (d : TempDir) (path : String) : Option (List Nat) :=
  match d.files.find? (fun e => e.1 = path) with
  | some e => some e.2
  | none => none

/-- Create or overwrite a temp file. -/
def TempDir.write (d : TempDir) (path : String) (data : List Nat) : TempDir :=
  ⟨(path, data) :: d.files.filter (fun e => e.1 ≠ path)⟩

/-- Model of `let _ = std::fs::remove_file(...)`: remove, ignoring any error. -/
def TempDir.removeIgnoringError (d : TempDir) (path : String) : TempDir :=
  ⟨d.files.filter (fun e => e.1 ≠ path)⟩

/-- Model of `std::fs::read`: fails when the file is absent. -/
def TempDir.read (d : TempDir) (path : String) : Except IoError (List Nat) :=
  match d.lookup path with
  | some data => .ok data
  | none => .error .notFound

/-- Model of `synthesize_festival` from `providers.rs`: run `festival` writing to
`tts_temp.wav`; on non-zero exit return the engine error at once (before any
cleanup), else read the temp file back and remove it, ignoring removal
errors. -/
def synthesize_festival (text language : String) (voice : Option String)
    (run : EngineRun) (d : TempDir) : Except String (List Nat) × TempDir :=
  let tempFile := "tts_temp.wav"
  let _args := festivalArgs text language voice
  if ¬run.spawnOk then (.error "festival could not be started", d)
  else
    let d1 :=
      match run.written with
      | some data => d.write tempFile data
      | none => d
    if ¬run.exitSuccess then
      (.error ("festival command failed: " ++ run.stderr), d1)
    else
      match d1.read tempFile with
      | .error _ => (.error "failed to read temp file", d1)
      | .ok audio => (.ok audio, d1.removeIgnoringError tempFile)

/-- Model of `synthesize_say` from `providers.rs`: run `say` writing to
`tts_temp.aiff`; same early-return structure as `synthesize_festival`. -/
def synthesize_say (text language : String) (voice : Option String)
    (run : EngineRun) (d : TempDir) : Except String (List Nat) × TempDir :=
  let tempFile := "tts_temp.aiff"
  let _args := sayArgs text language voice
  if ¬run.spawnOk then (.error "say could not be started", d)
  else
    let d1 :=
      match run.written with
      | some data => d.write tempFile data
      | none => d
    if ¬run.exitSuccess then
      (.error ("say command failed: " ++ run.stderr), d1)
    else
      match d1.read tempFile with
      | .error _ => (.error "failed to read temp file", d1)
      | .ok audio => (.ok audio, d1.removeIgnoringError tempFile)

/-! ## `main.rs`: fallback orchestrator and cached speak flow

`synthesize_with_fallback` is modelled against an environment giving each
provider's availability-probe outcome and the outcome of invoking its
synthesis routine. Alongside the result, the model returns the trace of
provider names whose synthesis routine was invoked, in order, so that
"invoked exactly once" properties are statable. -/

/-- Errors of the synthesis pipeline. -/
inductive SynthError where
  | unknownProvider (name : String) : SynthError
  | adapterFailed (message : String) : SynthError
  | ioFailure : SynthError
  | allProvidersFailed : SynthError
deriving Repr, DecidableEq

/-- The environment of one orchestrator invocation: each provider's
availability probe result and synthesis outcome. -/
structure ProviderEnv where
  avail : String → Bool
  synth : String → Except SynthError (List Nat)

/-- Model of `get_available_providers` from `providers.rs`: the fixed four-entry
catalog, in its hardcoded order, with probed availability. -/
def get_available_providers (env : ProviderEnv) : List (String × Bool) :=
  [("gcloud", env.avail "gcloud"), ("espeak", env.avail "espeak"),
   ("festival", env.avail "festival"), ("say", env.avail "say")]

/-- Model of `synthesize_text` from `providers.rs`: dispatch on the provider name;
unknown names fail. -/
def synthesize_text (env : ProviderEnv) (provider : String) :
    Except SynthError (List Nat) :=
  if provider = "gcloud" ∨ provider = "espeak" ∨ provider = "festival" ∨
      provider = "say" then env.synth provider
  else .error (.unknownProvider provider)

/-- The fixed fallback order of `main.rs`: local engines first, cloud API
last. -/
def fallback_order : List String := ["espeak", "festival", "say", "gcloud"]

/-- The fallback loop of `synthesize_with_fallback`: walk the fallback order,
skip the already-tried preferred provider, skip names whose catalog entry is
not available, invoke the rest in order until one succeeds. Returns the result
and the trace of invoked providers. -/
def fallbackLoop (env : ProviderEnv) (preferred : String) :
    List String → Except SynthError (List Nat) × List String
  | [] => (.error .allProvidersFailed, [])
  | p :: rest =>
      if p = preferred then fallbackLoop env preferred rest
      else
        match (get_available_providers env).find? (fun q => q.1 = p && q.2) with
        | some q =>
            match synthesize_text env q.1 with
            | .ok d => (.ok d, [q.1])
            | .error _ =>
                let r := fallbackLoop env preferred rest
                (r.1, q.1 :: r.2)
        | none => fallbackLoop env preferred rest

/-- Model of `synthesize_with_fallback` from `main.rs`: try the preferred provider
unconditionally, then run the fallback loop. Returns the result and the trace
of invoked providers. -/
def synthesize_with_fallback (env : ProviderEnv) (preferred : String) :
    Except SynthError (List Nat) × List String :=
  match synthesize_text env preferred with
  | .ok d => (.ok d, [preferred])
  | .error _ =>
      let r := fallbackLoop env preferred fallback_order
      (r.1, preferred :: r.2)

/-- Invoke each candidate in order, returning the first success and the trace
of invoked providers: the reference behaviour the fallback loop reduces to on
its filtered candidate list. -/
def runCandidates (env : ProviderEnv) :
    List String → Except SynthError (List Nat) × List String
  | [] => (.error .allProvidersFailed, [])
  | p :: rest =>
      match synthesize_text env p with
      | .ok d => (.ok d, [p])
      | .error _ =>
          let r := runCandidates env rest
          (r.1, p :: r.2)

/-- UTF-8 bytes of a string, as the hasher consumes them. -/
def strBytes (s : String) : List Nat := s.toUTF8.toList.map (fun b => b.toNat)

/-- The cached synthesis path of the `speak` command in `main.rs` (cache
enabled, no `--clear-cache`): look the key up, serve a hit from the cache,
otherwise synthesize with fallback and write the cache only on success. -/
def speak_cached_flow (env : ProviderEnv) (fs : CacheFs)
    (text provider language : String) (voice : Option String) :
    Except SynthError (List Nat) × CacheFs :=
  let cacheKey := generate_cache_key (strBytes text) (strBytes provider)
      (strBytes language) (voice.map strBytes)
  match get_cached_audio cacheKey fs with
  | .error _ => (.error .ioFailure, fs)
  | .ok (some cached) => (.ok cached, fs)
  | .ok none =>
      match synthesize_with_fallback env provider with
      | (.ok audio, _) =>
          match cache_audio cacheKey audio fs with
          | .ok fs2 => (.ok audio, fs2)
          | .error _ => (.error .ioFailure, fs)
      | (.error e, _) => (.error e, fs)

/-! ## Theorems -/

/-- The key is exactly the hex-encoded SHA-256 of the digest input. -/
theorem generate_cache_key_eq_hash (text provider language : List Nat)
    (voice : Option (List Nat)) :
    generate_cache_key text provider language voice =
      hexEncode (sha256 (digestInput text provider language voice)) := by
  cases voice <;>
    simp [generate_cache_key, digestInput, Sha256.new, Sha256.update,
      Sha256.finalize, List.append_assoc]

/-- Supporting observation for the voice-distinguishability design goal: with a
non-empty voice the digest input itself differs from the voice-absent digest
input (they have different lengths), so the keys differ unless SHA-256 has a
collision on this extension pair. -/
theorem digestInput_none_ne_some (text provider language v : List Nat)
    (hv : v ≠ []) :
    digestInput text provider language none ≠
      digestInput text provider language (some v) := by
  intro h
  have hlen := congrArg List.length h
  simp [digestInput] at hlen
  exact hv hlen

/-! ## Claim theorems about the cache store -/

/-- C2: `generate_cache_key` depends only on the byte concatenation
text ++ provider ++ language ++ (voice bytes when present): equal
concatenations give identical keys; in particular `Some ""` collides with
`None`, and shifting bytes across field boundaries (text "ab"/provider "c"
versus text "a"/provider "bc") gives identical keys. -/
theorem cache_key_depends_only_on_concatenation :
    (∀ t1 p1 l1 v1 t2 p2 l2 v2,
        digestInput t1 p1 l1 v1 = digestInput t2 p2 l2 v2 →
        generate_cache_key t1 p1 l1 v1 = generate_cache_key t2 p2 l2 v2) ∧
    (∀ t p l, generate_cache_key t p l (some []) = generate_cache_key t p l none) ∧
    generate_cache_key [97, 98] [99] [100] none =
      generate_cache_key [97] [98, 99] [100] none := by
  refine ⟨?_, ?_, ?_⟩
  · intro t1 p1 l1 v1 t2 p2 l2 v2 h
    rw [generate_cache_key_eq_hash, generate_cache_key_eq_hash, h]
  · intro t p l
    rw [generate_cache_key_eq_hash, generate_cache_key_eq_hash]
    simp [digestInput]
  · have h : digestInput [97, 98] [99] [100] none =
        digestInput [97] [98, 99] [100] none := by decide
    rw [generate_cache_key_eq_hash, generate_cache_key_eq_hash, h]

/-- Witness for C2 at a concrete boundary-shifted input pair. -/
theorem cache_key_depends_only_on_concatenation_witness :
    generate_cache_key [104, 105] [101] [108] (some [118]) =
      generate_cache_key [104] [105, 101] [108] (some [118]) :=
  cache_key_depends_only_on_concatenation.1 [104, 105] [101] [108] (some [118])
    [104] [105, 101] [108] (some [118]) (by decide)

/-- C10: `generate_cache_key` is pure and deterministic — identical inputs
always yield the identical key. -/
theorem cache_key_deterministic (t p l : List Nat) (v : Option (List Nat))
    (t' p' l' : List Nat) (v' : Option (List Nat))
    (ht : t = t') (hp : p = p') (hl : l = l') (hv : v = v') :
    generate_cache_key t p l v = generate_cache_key t' p' l' v' := by
  rw [ht, hp, hl, hv]

/-- Witness for C10 at a concrete input. -/
theorem cache_key_deterministic_witness :
    generate_cache_key [1] [2] [3] none = generate_cache_key [1] [2] [3] none :=
  cache_key_deterministic [1] [2] [3] none [1] [2] [3] none rfl rfl rfl rfl

/-- C7: a `cache_audio` write followed by `get_cached_audio` on the same key
returns exactly the stored blob. -/
theorem cache_put_get_roundtrip (k : String) (blob : List Nat) (fs fs2 : CacheFs)
    (h : cache_audio k blob fs = .ok fs2) :
    get_cached_audio k fs2 = .ok (some blob) := by
  simp only [cache_audio, Except.ok.injEq] at h
  subst h
  simp [get_cached_audio, CacheFs.pathExists, CacheFs.lookup, CacheFs.readFile,
    CacheFs.writeFile, CacheFs.createDirAll, List.find?]

/-- Witness for C7: a concrete put/get round trip. -/
theorem cache_put_get_roundtrip_witness :
    get_cached_audio "k" (CacheFs.mk true [("k" ++ ".audio", [1, 2])]) =
      .ok (some [1, 2]) :=
  cache_put_get_roundtrip "k" [1, 2] (CacheFs.mk false [])
    (CacheFs.mk true [("k" ++ ".audio", [1, 2])]) (by rfl)

/-- C8: `clear_text_cache` when no entry exists for the derived key succeeds
without error (and leaves the store unchanged), and `clear_all_cache` when the
cache root does not exist succeeds without error (and leaves the store
unchanged). -/
theorem cache_clear_absent_noop (t p l : List Nat) (v : Option (List Nat))
    (fs fsAll : CacheFs)
    (habs : fs.pathExists (get_cache_path (generate_cache_key t p l v)) = false)
    (hdir : fsAll.dirExists = false) :
    clear_text_cache t p l v fs = .ok fs ∧ clear_all_cache fsAll = .ok fsAll := by
  constructor
  · simp [clear_text_cache, habs]
  · simp [clear_all_cache, hdir]

/-- Witness for C8 on an empty filesystem. -/
theorem cache_clear_absent_noop_witness :
    clear_text_cache [1] [2] [3] none (CacheFs.mk false []) =
        .ok (CacheFs.mk false []) ∧
      clear_all_cache (CacheFs.mk false []) = .ok (CacheFs.mk false []) :=
  cache_clear_absent_noop [1] [2] [3] none (CacheFs.mk false [])
    (CacheFs.mk false []) (by rfl) (by rfl)

/-- A removed path is no longer found. -/
theorem TempDir.lookup_removeIgnoringError (d : TempDir) (p : String) :
    (d.removeIgnoringError p).lookup p = none := by
  simp only [TempDir.removeIgnoringError, TempDir.lookup]
  have h : (d.files.filter (fun e => e.1 ≠ p)).find? (fun e => e.1 = p) = none := by
    rw [List.find?_eq_none]
    intro x hx
    have := (List.mem_filter.mp hx).2
    simpa using this
  rw [h]

/-! ## Claim theorems about the adapters -/

/-- C3 counterexample: when the festival subprocess exits non-zero after
having written its output file, `synthesize_festival` returns the engine
error by an early return and the temporary file is left behind — cleanup does
not happen on the engine-failed path. -/
theorem festival_temp_file_survives_engine_failure :
    ((synthesize_festival "hi" "en-US" none
        (EngineRun.mk true false "boom" (some [0])) (TempDir.mk [])).2).lookup
        "tts_temp.wav" = some [0] ∧
    (synthesize_festival "hi" "en-US" none
        (EngineRun.mk true false "boom" (some [0])) (TempDir.mk [])).1 =
      .error ("festival command failed: " ++ "boom") := by
  constructor
  · rfl
  · rfl

/-- C3 amended: the temporary file is deleted on the success path — whenever
`synthesize_festival` (resp. `synthesize_say`) returns audio bytes, the
temporary file is absent from the resulting temp directory; on the
engine-failed path the early return skips the deletion. -/
theorem temp_file_deleted_on_success (text language : String)
    (voice : Option String) (run : EngineRun) (d : TempDir) (audio : List Nat) :
    ((synthesize_festival text language voice run d).1 = .ok audio →
      ((synthesize_festival text language voice run d).2).lookup
        "tts_temp.wav" = none) ∧
    ((synthesize_say text language voice run d).1 = .ok audio →
      ((synthesize_say text language voice run d).2).lookup
        "tts_temp.aiff" = none) := by
  constructor
  · intro h
    simp only [synthesize_festival] at h ⊢
    by_cases hs : run.spawnOk
    · simp only [hs, not_true_eq_false, if_false, ite_false] at h ⊢
      by_cases he : run.exitSuccess
      · simp only [he, not_true_eq_false, if_false, ite_false] at h ⊢
        cases hr : (match run.written with
            | some data => TempDir.write d "tts_temp.wav" data
            | none => d).read "tts_temp.wav" with
        | error e => simp [hr] at h
        | ok a => simp [hr, TempDir.lookup_removeIgnoringError]
      · simp [he] at h
    · simp [hs] at h
  · intro h
    simp only [synthesize_say] at h ⊢
    by_cases hs : run.spawnOk
    · simp only [hs, not_true_eq_false, if_false, ite_false] at h ⊢
      by_cases he : run.exitSuccess
      · simp only [he, not_true_eq_false, if_false, ite_false] at h ⊢
        cases hr : (match run.written with
            | some data => TempDir.write d "tts_temp.aiff" data
            | none => d).read "tts_temp.aiff" with
        | error e => simp [hr] at h
        | ok a => simp [hr, TempDir.lookup_removeIgnoringError]
      · simp [he] at h
    · simp [hs] at h

/-- Witness for the amended C3: a concrete successful run leaves no temp
file. -/
theorem temp_file_deleted_on_success_witness :
    ((synthesize_festival "hi" "en-US" none
        (EngineRun.mk true true "" (some [5])) (TempDir.mk [])).2).lookup
      "tts_temp.wav" = none :=
  (temp_file_deleted_on_success "hi" "en-US" none
    (EngineRun.mk true true "" (some [5])) (TempDir.mk []) [5]).1 (by rfl)

/-- C4 counterexample: festival's invocation is identical for distinct
language codes and contains no voice argument, and so is say's when the voice
is absent — neither adapter performs any language-keyed default-table voice
lookup, contradicting the claim that all four adapters do. -/
theorem festival_say_no_language_table_lookup :
    festivalArgs "hello" "en-US" none = festivalArgs "hello" "de-DE" none ∧
    sayArgs "hello" "en-US" none = sayArgs "hello" "de-DE" none ∧
    (sayArgs "hello" "en-US" none).contains "-v" = false ∧
    (festivalArgs "hello" "en-US" none).contains "-v" = false := by
  refine ⟨rfl, rfl, ?_, ?_⟩ <;> rfl

/-- C4 amended: with voice absent, gcloud selects its voice and espeak its
`-v` language code through their own default tables keyed by the language
code, with baseline defaults `en-US-Wavenet-D` and `en`; festival's
invocation is independent of both language and voice, and say passes a voice
flag only when an explicit voice is given, independently of language. -/
theorem adapter_voice_selection :
    (∀ language v, gcloudVoiceName language (some v) = v) ∧
    (gcloudVoiceName "en-US" none = "en-US-Wavenet-D" ∧
      gcloudVoiceName "es-ES" none = "es-ES-Wavenet-C" ∧
      gcloudVoiceName "fr-FR" none = "fr-FR-Wavenet-D" ∧
      gcloudVoiceName "de-DE" none = "de-DE-Wavenet-D") ∧
    (∀ language, language ≠ "en-US" → language ≠ "es-ES" →
      language ≠ "fr-FR" → language ≠ "de-DE" →
      gcloudVoiceName language none = "en-US-Wavenet-D") ∧
    (espeakLangCode "en-US" = "en" ∧ espeakLangCode "es-ES" = "es" ∧
      espeakLangCode "fr-FR" = "fr" ∧ espeakLangCode "de-DE" = "de") ∧
    (∀ language, language ≠ "en-US" → language ≠ "en" → language ≠ "es-ES" →
      language ≠ "es" → language ≠ "fr-FR" → language ≠ "fr" →
      language ≠ "de-DE" → language ≠ "de" → espeakLangCode language = "en") ∧
    (∀ text l1 l2 voice, festivalArgs text l1 voice = festivalArgs text l2 voice) ∧
    (∀ text l1 l2, sayArgs text l1 none = sayArgs text l2 none) ∧
    (∀ text language, sayArgs text language none = ["-o", "tts_temp.aiff", text]) ∧
    (∀ text language v, sayArgs text language (some v) =
      ["-o", "tts_temp.aiff", "-v", v, text]) := by
  refine ⟨fun language v => rfl, ⟨rfl, rfl, rfl, rfl⟩, ?_, ⟨rfl, rfl, rfl, rfl⟩,
    ?_, fun text l1 l2 voice => rfl, fun text l1 l2 => rfl, fun t l => rfl,
    fun t l v => rfl⟩
  · intro language h1 h2 h3 h4
    simp [gcloudVoiceName, h1, h2, h3, h4]
  · intro language h1 h2 h3 h4 h5 h6 h7 h8
    simp [espeakLangCode, h1, h2, h3, h4, h5, h6, h7, h8]

/-- Witness for the amended C4 at an unrecognized language code. -/
theorem adapter_voice_selection_witness :
    gcloudVoiceName "it-IT" none = "en-US-Wavenet-D" ∧
      espeakLangCode "it-IT" = "en" :=
  ⟨adapter_voice_selection.2.2.1 "it-IT" (by decide) (by decide) (by decide)
      (by decide),
    adapter_voice_selection.2.2.2.2.1 "it-IT" (by decide) (by decide) (by decide)
      (by decide) (by decide) (by decide) (by decide) (by decide)⟩

/-- Looking a fallback-order name up in the probed catalog finds exactly the
available entry for that name. -/
theorem find_available (env : ProviderEnv) (p : String)
    (hp : p = "gcloud" ∨ p = "espeak" ∨ p = "festival" ∨ p = "say") :
    (get_available_providers env).find? (fun q => q.1 = p && q.2) =
      if env.avail p then some (p, true) else none := by
  rcases hp with h | h | h | h <;> subst h <;>
    cases hgc : env.avail "gcloud" <;> cases hes : env.avail "espeak" <;>
      cases hfe : env.avail "festival" <;> cases hsa : env.avail "say" <;>
        simp [get_available_providers, List.find?, hgc, hes, hfe, hsa]

/-- The fallback loop over a list of catalog names is the plain run of its
filtered candidate list: names other than the preferred one whose probe
reported available, in order. -/
theorem fallbackLoop_eq_runCandidates (env : ProviderEnv) (preferred : String)
    (l : List String)
    (hl : ∀ p ∈ l, p = "gcloud" ∨ p = "espeak" ∨ p = "festival" ∨ p = "say") :
    fallbackLoop env preferred l =
      runCandidates env (l.filter (fun p => p ≠ preferred && env.avail p)) := by
  induction l with
  | nil => rfl
  | cons p rest ih =>
      have hp := hl p (List.mem_cons_self p rest)
      have hrest := fun q hq => hl q (List.mem_cons_of_mem p hq)
      by_cases hpp : p = preferred
      · subst hpp
        simp [fallbackLoop, List.filter_cons, ih hrest]
      · rw [List.filter_cons]
        cases ha : env.avail p with
        | true =>
            have hfind := find_available env p hp
            rw [ha, if_pos rfl] at hfind
            rw [if_pos (by simp [hpp])]
            simp only [fallbackLoop, if_neg hpp, hfind]
            cases hs : synthesize_text env p with
            | ok d => simp [runCandidates, hs]
            | error e => simp [runCandidates, hs, ih hrest]
        | false =>
            have hfind := find_available env p hp
            rw [ha, if_neg (by simp)] at hfind
            rw [if_neg (by simp)]
            simp only [fallbackLoop, if_neg hpp, hfind]
            exact ih hrest

/-- Every provider in a candidate-run trace comes from the candidate list. -/
theorem runCandidates_trace_mem (env : ProviderEnv) (l : List String)
    (p : String) (hp : p ∈ (runCandidates env l).2) : p ∈ l := by
  induction l with
  | nil => simp [runCandidates] at hp
  | cons q rest ih =>
      simp only [runCandidates] at hp
      cases hs : synthesize_text env q with
      | ok d => rw [hs] at hp; simp at hp; simp [hp]
      | error e =>
          rw [hs] at hp
          simp only [List.mem_cons] at hp ⊢
          rcases hp with hp | hp
          · exact Or.inl hp
          · exact Or.inr (ih hp)

/-- When every candidate fails, the candidate run fails with the terminal
error. -/
theorem runCandidates_all_fail (env : ProviderEnv) (l : List String)
    (hfail : ∀ p ∈ l, ∃ e, synthesize_text env p = .error e) :
    (runCandidates env l).1 = .error .allProvidersFailed := by
  induction l with
  | nil => rfl
  | cons q rest ih =>
      obtain ⟨e, he⟩ := hfail q (List.mem_cons_self q rest)
      simp only [runCandidates, he]
      exact ih (fun p hp => hfail p (List.mem_cons_of_mem q hp))

/-! ## Claim theorems about the orchestrator -/

/-- C5: when the preferred provider fails and exactly one other provider is
available (and its synthesis succeeds), `synthesize_with_fallback` returns
that fallback's audio; the invocation trace is exactly `[preferred, q]`, so
the preferred provider was invoked exactly once and the loop skipped every
unavailable or already-tried provider of the fixed order. -/
theorem fallback_single_available_success (env : ProviderEnv)
    (preferred q : String) (bytes : List Nat) (e : SynthError)
    (hfail : synthesize_text env preferred = .error e)
    (hcand : fallback_order.filter (fun p => p ≠ preferred && env.avail p) = [q])
    (hq : synthesize_text env q = .ok bytes) :
    (synthesize_with_fallback env preferred).1 = .ok bytes ∧
    (synthesize_with_fallback env preferred).2 = [preferred, q] ∧
    ((synthesize_with_fallback env preferred).2).count preferred = 1 := by
  have hnames : ∀ p ∈ fallback_order,
      p = "gcloud" ∨ p = "espeak" ∨ p = "festival" ∨ p = "say" := by decide
  have hloop := fallbackLoop_eq_runCandidates env preferred fallback_order hnames
  rw [hcand] at hloop
  have hrun : runCandidates env [q] = (.ok bytes, [q]) := by
    simp [runCandidates, hq]
  rw [hrun] at hloop
  have hqne : q ≠ preferred := by
    have hmem : q ∈ fallback_order.filter
        (fun p => p ≠ preferred && env.avail p) := by
      rw [hcand]
      exact List.mem_singleton_self q
    have h2 := (List.mem_filter.mp hmem).2
    simp at h2
    exact h2.1
  have hsw : synthesize_with_fallback env preferred = (.ok bytes, [preferred, q]) := by
    simp [synthesize_with_fallback, hfail, hloop]
  rw [hsw]
  refine ⟨rfl, rfl, ?_⟩
  simp [List.count_cons, hqne]

/-- Witness for C5: gcloud preferred and failing, festival the only available
fallback and succeeding. -/
theorem fallback_single_available_success_witness :
    (synthesize_with_fallback
        (ProviderEnv.mk (fun n => n == "festival")
          (fun n => if n == "festival" then .ok [7] else .error (.adapterFailed "x")))
        "gcloud").1 = .ok [7] :=
  (fallback_single_available_success
    (ProviderEnv.mk (fun n => n == "festival")
      (fun n => if n == "festival" then .ok [7] else .error (.adapterFailed "x")))
    "gcloud" "festival" [7] (.adapterFailed "x")
    (by rfl) (by decide) (by rfl)).1

/-- C6: when the preferred provider fails and every fallback candidate is
unavailable or fails, `synthesize_with_fallback` returns the terminal
all-providers-failed error and the cached speak flow leaves the cache store
unchanged. -/
theorem all_fail_error_and_no_cache_write (env : ProviderEnv) (fs : CacheFs)
    (text provider language : String) (voice : Option String)
    (hmiss : get_cached_audio (generate_cache_key (strBytes text)
        (strBytes provider) (strBytes language) (voice.map strBytes)) fs = .ok none)
    (hfail : ∃ e, synthesize_text env provider = .error e)
    (hcand : ∀ p ∈ fallback_order, p ≠ provider → env.avail p = true →
        ∃ e, synthesize_text env p = .error e) :
    (synthesize_with_fallback env provider).1 = .error .allProvidersFailed ∧
    speak_cached_flow env fs text provider language voice =
      (.error .allProvidersFailed, fs) := by
  obtain ⟨e0, he0⟩ := hfail
  have hnames : ∀ p ∈ fallback_order,
      p = "gcloud" ∨ p = "espeak" ∨ p = "festival" ∨ p = "say" := by decide
  have hloop := fallbackLoop_eq_runCandidates env provider fallback_order hnames
  have hallfail : ∀ p ∈ fallback_order.filter
      (fun p => p ≠ provider && env.avail p),
      ∃ e, synthesize_text env p = .error e := by
    intro p hpmem
    have h1 := (List.mem_filter.mp hpmem).1
    have h2 := (List.mem_filter.mp hpmem).2
    simp at h2
    exact hcand p h1 h2.1 h2.2
  have hrun := runCandidates_all_fail env _ hallfail
  have hres : (synthesize_with_fallback env provider).1 =
      .error .allProvidersFailed := by
    simp only [synthesize_with_fallback, he0]
    rw [hloop]
    exact hrun
  refine ⟨hres, ?_⟩
  rcases hsw : synthesize_with_fallback env provider with ⟨r, t⟩
  rw [hsw] at hres
  have hr : r = .error .allProvidersFailed := hres
  subst hr
  simp [speak_cached_flow, hmiss, hsw]

/-- Witness for C6: every provider fails, the cache starts absent and is
untouched. -/
theorem all_fail_error_and_no_cache_write_witness :
    speak_cached_flow
        (ProviderEnv.mk (fun _ => true) (fun _ => .error (.adapterFailed "no")))
        (CacheFs.mk false []) "hello" "gcloud" "en-US" none =
      (.error .allProvidersFailed, CacheFs.mk false []) :=
  (all_fail_error_and_no_cache_write
    (ProviderEnv.mk (fun _ => true) (fun _ => .error (.adapterFailed "no")))
    (CacheFs.mk false []) "hello" "gcloud" "en-US" none
    (by rfl) ⟨.adapterFailed "no", by rfl⟩
    (by
      intro p hp _ _
      exact ⟨.adapterFailed "no", by fin_cases hp <;> rfl⟩)).2

/-- C9: the preferred provider is always invoked first, without consulting its
availability probe (the environment is arbitrary, in particular its probe may
report unavailable), while every provider invoked by the fallback loop has a
probe reporting available and differs from the preferred provider; the
preferred provider is invoked exactly once. -/
theorem preferred_tried_unconditionally (env : ProviderEnv) (preferred : String) :
    ((synthesize_with_fallback env preferred).2).head? = some preferred ∧
    (∀ p ∈ ((synthesize_with_fallback env preferred).2).tail,
        env.avail p = true ∧ p ≠ preferred) ∧
    ((synthesize_with_fallback env preferred).2).count preferred = 1 := by
  have hnames : ∀ p ∈ fallback_order,
      p = "gcloud" ∨ p = "espeak" ∨ p = "festival" ∨ p = "say" := by decide
  cases hs : synthesize_text env preferred with
  | ok d => simp [synthesize_with_fallback, hs]
  | error e =>
      have hloop := fallbackLoop_eq_runCandidates env preferred fallback_order hnames
      have htail : ∀ p ∈ (fallbackLoop env preferred fallback_order).2,
          env.avail p = true ∧ p ≠ preferred := by
        intro p hp
        rw [hloop] at hp
        have hmem := runCandidates_trace_mem env _ p hp
        have h2 := (List.mem_filter.mp hmem).2
        simp at h2
        exact ⟨h2.2, h2.1⟩
      have hnot : preferred ∉ (fallbackLoop env preferred fallback_order).2 := by
        intro hmem
        exact (htail preferred hmem).2 rfl
      have hsw : synthesize_with_fallback env preferred =
          ((fallbackLoop env preferred fallback_order).1,
            preferred :: (fallbackLoop env preferred fallback_order).2) := by
        simp [synthesize_with_fallback, hs]
      rw [hsw]
      refine ⟨rfl, ?_, ?_⟩
      · intro p hp
        simp only [List.tail_cons] at hp
        exact htail p hp
      · simp only [List.count_cons_self]
        rw [List.count_eq_zero.mpr hnot]

/-- Witness for C9: an unavailable preferred provider still heads the
invocation trace. -/
theorem preferred_tried_unconditionally_witness :
    ((synthesize_with_fallback
        (ProviderEnv.mk (fun _ => false) (fun _ => .error (.adapterFailed "x")))
        "espeak").2).head? = some "espeak" :=
  (preferred_tried_unconditionally
    (ProviderEnv.mk (fun _ => false) (fun _ => .error (.adapterFailed "x")))
    "espeak").1
